import Mathlib

/-!
Shallow embedding of `src/lib/renderer.ts` (TypeDoc renderer registry and
dispatcher, class `RendererContainer`), together with proofs of the
registry's contracts: uniqueness of names, the identity check of
`setDefault`, the default-renderer invariant, the fallback policy and the
failure-isolation behaviour of `render`.

Modelling choices:
* A JS `Renderer` object is modelled as a structure.  JS reference
  identity (`===`) is reified by the `uid` field: distinct instances get
  distinct `uid`s even when every other field agrees, so structural
  equality of the Lean values models `===` on the objects.
* `isEnabled()` is queried once per render pass and there is exactly one
  render pass per registry lifetime, so its result is modelled by the
  field `enabled`.  Likewise `render(project)` is called on the single
  documentation model of the run; its outcome is the field
  `renderResult`: `none` models a promise that fulfills, `some msg`
  models a rejection with an error whose `.message` is `msg`.
* The JS `Map` is modelled as an association list in insertion order:
  `Map.has` is an existence test, `Map.get` returns the first (unique)
  binding, and `Map.set` on a fresh key appends (in `addRenderer`, `set`
  only ever runs on a fresh key).  `Map.values()` is the list of values
  in insertion order.
* `ok(cond, msg)` from node's `assert` throws an `AssertionError` when
  `cond` is false; the method then terminates without touching the map,
  while the container object itself survives.  Methods that can throw are
  therefore modelled as returning the (possibly unchanged) container
  paired with `Except String Unit`, where `Except.error msg` is the
  thrown assertion.
-/

structure Renderer where
  uid : Nat
  name : String
  enabled : Bool
  renderResult : Option String
deriving DecidableEq, Repr

structure RendererContainer where
  defaultRenderer : Renderer
  renderers : List (String × Renderer)
deriving DecidableEq, Repr

namespace RendererContainer

/-- `this.renderers.has(name)`. -/
def hasName (c : RendererContainer) (n : String) : Bool :=
  c.renderers.any (fun p => p.1 == n)

/-- `addRenderer(renderer)`: asserts the name is fresh, then
`this.renderers.set(renderer.name, renderer)` (an append, since the key is
fresh).  On assertion failure the container is unchanged and the
`AssertionError` message is returned as `Except.error`. -/
def addRenderer (c : RendererContainer) (r : Renderer) :
    RendererContainer × Except String Unit :=
  if c.hasName r.name then
    (c, Except.error ("Renderer names must be unique, duplicate: " ++ r.name))
  else
    ({ c with renderers := c.renderers ++ [(r.name, r)] }, Except.ok ())

/-- `getRenderer(name)`: `this.renderers.get(name)`, i.e. the first (and,
with unique keys, only) binding of `name`, or `none` (JS `undefined`). -/
def getRenderer (c : RendererContainer) (n : String) : Option Renderer :=
  (c.renderers.find? (fun p => p.1 == n)).map (fun p => p.2)

/-- `setDefault(renderer)`: asserts
`this.renderers.get(renderer.name) === renderer` (instance identity), then
assigns `this.defaultRenderer = renderer`. -/
def setDefault (c : RendererContainer) (r : Renderer) :
    RendererContainer × Except String Unit :=
  if c.getRenderer r.name = some r then
    ({ c with defaultRenderer := r }, Except.ok ())
  else
    (c, Except.error
      "A renderer can only be set as the default if it has been added to the container")

/-- The eligible set of `render`:
`[...this.renderers.values()].filter((renderer) => renderer.isEnabled())`. -/
def eligible (c : RendererContainer) : List Renderer :=
  (c.renderers.map (fun p => p.2)).filter (fun r => r.enabled)

/-- `render(project)`: computes the enabled renderers, pushes the default
renderer when that list is empty, then awaits all of their `render` calls,
each with a `.catch` that logs the error message.  Returns the container
state after the call (the method never writes `this.renderers` or
`this.defaultRenderer`), the list of renderers whose `render` was invoked,
and the list of messages passed to `this.app.logger.error`. -/
def render (c : RendererContainer) :
    RendererContainer × List Renderer × List String :=
  let en := c.eligible
  let run := if en.isEmpty then [c.defaultRenderer] else en
  (c, run, run.filterMap (fun r => r.renderResult))

/-- The renderers whose `render` operation a call to `render` invokes. -/
def invoked (c : RendererContainer) : List Renderer :=
  c.render.2.1

/-- The error messages a call to `render` reports to the logger. -/
def logged (c : RendererContainer) : List String :=
  c.render.2.2

end RendererContainer

/-- Modelled from the spec: `HtmlRenderer` (imported from
`./html/renderer`) is not under `src/`; per §6 of the spec and the
`RendererMap` declaration its `name` is `"html"`.  Its enabled state and
render outcome are external configuration and are taken as parameters. -/
def htmlRenderer (uid : Nat) (enabled : Bool) (res : Option String) : Renderer :=
  { uid := uid, name := "html", enabled := enabled, renderResult := res }

/-- Modelled from the spec: `Serializer` (imported from `./json`) is not
under `src/`; per §6 of the spec and the `RendererMap` declaration its
`name` is `"json"`.  Its enabled state and render outcome are external
configuration and are taken as parameters. -/
def serializer (uid : Nat) (enabled : Bool) (res : Option String) : Renderer :=
  { uid := uid, name := "json", enabled := enabled, renderResult := res }

namespace RendererContainer

/-- The constructor: sets `this.defaultRenderer = new HtmlRenderer(app)`,
then `addRenderer`s the html renderer and a fresh `Serializer`.  Were an
assertion inside to throw, the construction would abort with that error. -/
def init (htmlR jsonR : Renderer) : RendererContainer × Except String Unit :=
  let c0 : RendererContainer := { defaultRenderer := htmlR, renderers := [] }
  let s1 := addRenderer c0 htmlR
  match s1.2 with
  | Except.error m => (s1.1, Except.error m)
  | Except.ok _ => addRenderer s1.1 jsonR

/-- The container states reachable through the public API: construction
(with the two built-in renderers), `addRenderer`, `setDefault` and
`render`, including the calls that throw (which leave the state of the
surviving container unchanged).  `getRenderer` does not write state. -/
inductive Reachable : RendererContainer → Prop
  | init (hu ju : Nat) (he je : Bool) (hres jres : Option String)
      (c : RendererContainer) :
      init (htmlRenderer hu he hres) (serializer ju je jres) =
        (c, Except.ok ()) →
      Reachable c
  | add (c : RendererContainer) (r : Renderer) :
      Reachable c → Reachable (c.addRenderer r).1
  | setDef (c : RendererContainer) (r : Renderer) :
      Reachable c → Reachable (c.setDefault r).1
  | renderStep (c : RendererContainer) :
      Reachable c → Reachable c.render.1

/-- The registry's documented invariants: keys are unique (I1), each key
is the stored renderer's own `name`, the default renderer is registered
under its own name by identity (I2), and the registry is non-empty (I3). -/
def WellFormed (c : RendererContainer) : Prop :=
  (c.renderers.map Prod.fst).Nodup ∧
  (∀ p ∈ c.renderers, p.1 = p.2.name) ∧
  c.getRenderer c.defaultRenderer.name = some c.defaultRenderer ∧
  c.renderers ≠ []

lemma hasName_eq_false_iff (c : RendererContainer) (n : String) :
    c.hasName n = false ↔ ∀ p ∈ c.renderers, p.1 ≠ n := by
  simp [hasName, List.any_eq_true]

lemma getRenderer_append_of_some (c : RendererContainer)
    (q : String × Renderer) (n : String) (r : Renderer)
    (h : c.getRenderer n = some r) :
    ({ c with renderers := c.renderers ++ [q] } :
        RendererContainer).getRenderer n = some r := by
  obtain ⟨p, hp, hpr⟩ := Option.map_eq_some'.1 h
  simp [getRenderer, List.find?_append, hp, Option.or, hpr]

lemma getRenderer_append_of_none (c : RendererContainer)
    (q : String × Renderer) (n : String)
    (h : c.getRenderer n = none) :
    ({ c with renderers := c.renderers ++ [q] } :
        RendererContainer).getRenderer n =
      if q.1 = n then some q.2 else none := by
  have hfind : c.renderers.find? (fun p => p.1 == n) = none :=
    Option.map_eq_none'.1 h
  simp only [getRenderer, List.find?_append, hfind, Option.none_or]
  cases hq : (q.1 == n)
  · have hne : ¬q.1 = n := by simpa using hq
    simp [List.find?, hq, hne]
  · have he : q.1 = n := by simpa using hq
    simp [List.find?, hq, he]

lemma getRenderer_addRenderer_fresh (c : RendererContainer) (r : Renderer)
    (h : c.hasName r.name = false) :
    (c.addRenderer r).1.getRenderer r.name = some r := by
  have hnone : c.getRenderer r.name = none := by
    simp only [getRenderer, Option.map_eq_none', List.find?_eq_none]
    intro p hp
    simpa using (hasName_eq_false_iff c r.name).1 h p hp
  have hstate : (c.addRenderer r).1 =
      { c with renderers := c.renderers ++ [(r.name, r)] } := by
    simp [addRenderer, h]
  rw [hstate, getRenderer_append_of_none c (r.name, r) r.name hnone]
  simp

lemma getRenderer_addRenderer_other (c : RendererContainer) (r : Renderer)
    (n : String) (h : n ≠ r.name) :
    (c.addRenderer r).1.getRenderer n = c.getRenderer n := by
  by_cases hdup : c.hasName r.name
  · simp [addRenderer, hdup]
  · have hstate : (c.addRenderer r).1 =
        { c with renderers := c.renderers ++ [(r.name, r)] } := by
      simp [addRenderer, hdup]
    rw [hstate]
    rcases hg : c.getRenderer n with _ | s
    · rw [getRenderer_append_of_none c (r.name, r) n hg]
      simp [Ne.symm h]
    · exact getRenderer_append_of_some c (r.name, r) n s hg

lemma wf_addRenderer (c : RendererContainer) (r : Renderer)
    (h : c.WellFormed) : (c.addRenderer r).1.WellFormed := by
  by_cases hdup : c.hasName r.name
  · simpa [addRenderer, hdup] using h
  · obtain ⟨h1, h2, h3, h4⟩ := h
    have hfresh := (hasName_eq_false_iff c r.name).1 (by simpa using hdup)
    have hstate : (c.addRenderer r).1 =
        { c with renderers := c.renderers ++ [(r.name, r)] } := by
      simp [addRenderer, hdup]
    rw [hstate]
    refine ⟨?_, ?_, ?_, ?_⟩
    · simp only [List.map_append, List.map_cons, List.map_nil,
        List.nodup_append, List.disjoint_singleton]
      refine ⟨h1, by simp, ?_⟩
      simp only [List.mem_map, not_exists]
      rintro p ⟨hp, hpe⟩
      exact hfresh p hp hpe
    · intro p hp
      rcases List.mem_append.1 hp with hp | hp
      · exact h2 p hp
      · simp only [List.mem_singleton] at hp
        rw [hp]
    · exact getRenderer_append_of_some c (r.name, r)
        c.defaultRenderer.name c.defaultRenderer h3
    · simp

lemma wf_setDefault (c : RendererContainer) (r : Renderer)
    (h : c.WellFormed) : (c.setDefault r).1.WellFormed := by
  by_cases hid : c.getRenderer r.name = some r
  · obtain ⟨h1, h2, _, h4⟩ := h
    have hstate : (c.setDefault r).1 = { c with defaultRenderer := r } := by
      simp [setDefault, hid]
    rw [hstate]
    exact ⟨h1, h2, hid, h4⟩
  · have hstate : (c.setDefault r).1 = c := by
      simp [setDefault, hid]
    rw [hstate]
    exact h

lemma init_eq (hu ju : Nat) (he je : Bool) (hres jres : Option String) :
    init (htmlRenderer hu he hres) (serializer ju je jres) =
      ({ defaultRenderer := htmlRenderer hu he hres,
         renderers := [("html", htmlRenderer hu he hres),
                       ("json", serializer ju je jres)] },
       Except.ok ()) := rfl

lemma reachable_wf {c : RendererContainer} (h : Reachable c) :
    c.WellFormed := by
  induction h with
  | init hu ju he je hres jres c hc =>
      rw [init_eq] at hc
      cases hc
      refine ⟨by simp [htmlRenderer, serializer], ?_, ?_, by simp⟩
      · intro p hp
        simp only [List.mem_cons, List.mem_singleton, List.not_mem_nil] at hp
        rcases hp with rfl | rfl | h
        · rfl
        · rfl
        · exact h.elim
      · simp [getRenderer, htmlRenderer, List.find?]
  | add c r _ ih => exact wf_addRenderer c r ih
  | setDef c r _ ih => exact wf_setDefault c r ih
  | renderStep c _ ih => exact ih

lemma values_nodup {c : RendererContainer} (h : c.WellFormed) :
    (c.renderers.map Prod.snd).Nodup := by
  obtain ⟨h1, h2, -, -⟩ := h
  have hmap : c.renderers.map Prod.fst =
      (c.renderers.map Prod.snd).map Renderer.name := by
    rw [List.map_map]
    exact List.map_congr_left h2
  rw [hmap] at h1
  exact h1.of_map _

end RendererContainer

open RendererContainer

/-- A helper: the length of `filterMap f l` is the number of elements of
`l` on which `f` yields a value. -/
lemma length_filterMap_eq_length_filter {α β : Type} (f : α → Option β)
    (l : List α) :
    (l.filterMap f).length = (l.filter (fun a => (f a).isSome)).length := by
  induction l with
  | nil => rfl
  | cons a l ih =>
      cases hf : f a <;> simp [List.filterMap_cons, List.filter_cons, hf, ih]

/-- The built-in html renderer with the external configuration "disabled,
render succeeds"; instance identity 0. -/
def rHtml : Renderer := htmlRenderer 0 false none

/-- The built-in json renderer with the external configuration "disabled,
render succeeds"; instance identity 1. -/
def rJson : Renderer := serializer 1 false none

/-- The container state right after construction with `rHtml` and
`rJson`. -/
def cInit : RendererContainer :=
  { defaultRenderer := rHtml,
    renderers := [("html", rHtml), ("json", rJson)] }

/-- A plugin renderer named `markdown`, enabled, whose render operation
fails with the message `boom`. -/
def rMark : Renderer :=
  { uid := 2, name := "markdown", enabled := true,
    renderResult := some "boom" }

/-- The container after additionally registering `rMark`. -/
def cMark : RendererContainer := (cInit.addRenderer rMark).1

/-- Claim C1: for every call to `render`, the renderers invoked are
exactly the eligible set (the registered renderers whose `isEnabled()`
returns true at that call); when that set is empty, exactly the single
renderer stored as `defaultRenderer` is invoked and no other. -/
theorem renderAll_invokes_eligible_or_default (c : RendererContainer) :
    c.invoked =
      (if c.eligible = [] then [c.defaultRenderer] else c.eligible) ∧
    ∀ r : Renderer,
      (r ∈ c.eligible ↔ r ∈ c.renderers.map Prod.snd ∧ r.enabled = true) := by
  constructor
  · by_cases he : c.eligible = [] <;>
      simp [invoked, render, List.isEmpty_iff, he]
  · intro r
    simp [eligible, List.mem_filter]

/-- Claim C3: registering a renderer under a name already present throws
and leaves the registry (map and default) exactly as before; registering
under a fresh name succeeds and stores the renderer under its name. -/
theorem addRenderer_unique_names (c : RendererContainer) (r : Renderer) :
    (c.hasName r.name = true →
      (c.addRenderer r).1 = c ∧
      ∃ m, (c.addRenderer r).2 = Except.error m) ∧
    (c.hasName r.name = false →
      (c.addRenderer r).2 = Except.ok () ∧
      (c.addRenderer r).1.getRenderer r.name = some r) := by
  constructor
  · intro h
    simp [addRenderer, h]
  · intro h
    exact ⟨by simp [addRenderer, h], getRenderer_addRenderer_fresh c r h⟩

/-- Witness for C3: re-registering the name `html` on the seeded registry
leaves it unchanged, and registering the fresh name `markdown`
succeeds. -/
theorem addRenderer_unique_names_witness :
    (cInit.addRenderer (htmlRenderer 7 true none)).1 = cInit ∧
    (cInit.addRenderer rMark).2 = Except.ok () := by
  refine ⟨((addRenderer_unique_names cInit (htmlRenderer 7 true none)).1
    (by decide)).1, ((addRenderer_unique_names cInit rMark).2 (by decide)).1⟩

/-- Claim C4: `setDefault r` succeeds and replaces the default renderer
exactly when `r` is the identical instance stored under `r.name`;
otherwise (including a look-alike sharing the name) it throws and the
container, in particular its prior default, is unchanged. -/
theorem setDefault_identity_check (c : RendererContainer) (r : Renderer) :
    (c.getRenderer r.name = some r →
      (c.setDefault r).2 = Except.ok () ∧
      (c.setDefault r).1.defaultRenderer = r ∧
      (c.setDefault r).1.renderers = c.renderers) ∧
    (c.getRenderer r.name ≠ some r →
      (∃ m, (c.setDefault r).2 = Except.error m) ∧
      (c.setDefault r).1 = c) := by
  constructor
  · intro h
    simp [setDefault, h]
  · intro h
    simp [setDefault, h]

/-- Witness for C4: promoting the registered `rJson` instance succeeds
and replaces the default; a look-alike html renderer that was never
registered (same name `html`, different instance) is rejected and the
container is unchanged. -/
theorem setDefault_identity_check_witness :
    (cInit.setDefault rJson).1.defaultRenderer = rJson ∧
    (cInit.setDefault (htmlRenderer 99 false none)).1 = cInit := by
  refine ⟨((setDefault_identity_check cInit rJson).1 (by decide)).2.1,
    ((setDefault_identity_check cInit (htmlRenderer 99 false none)).2
      (by decide)).2⟩

/-- Claim C8: `render` never mutates the registry: after a call, the
renderers map and the default renderer reference are exactly what they
were before (the method body never writes `this.renderers` or
`this.defaultRenderer`). -/
theorem renderAll_preserves_registry (c : RendererContainer) :
    c.render.1.renderers = c.renderers ∧
    c.render.1.defaultRenderer = c.defaultRenderer :=
  ⟨rfl, rfl⟩

/-- Claim C9: after successfully registering a fresh-named renderer,
looking its name up returns exactly that instance, and lookups of every
other name are unchanged. -/
theorem register_then_lookup (c : RendererContainer) (r : Renderer)
    (h : c.hasName r.name = false) :
    (c.addRenderer r).1.getRenderer r.name = some r ∧
    ∀ n : String, n ≠ r.name →
      (c.addRenderer r).1.getRenderer n = c.getRenderer n :=
  ⟨getRenderer_addRenderer_fresh c r h,
   fun n hn => getRenderer_addRenderer_other c r n hn⟩

/-- Witness for C9: registering `markdown` on the seeded registry, then
looking up `markdown` yields the new instance while `html` still yields
the built-in one. -/
theorem register_then_lookup_witness :
    (cInit.addRenderer rMark).1.getRenderer "markdown" = some rMark ∧
    (cInit.addRenderer rMark).1.getRenderer "html" = some rHtml := by
  have h := register_then_lookup cInit rMark (by decide)
  refine ⟨h.1, ?_⟩
  rw [h.2 "html" (by decide)]
  decide

/-- Claim C2: every failure of an invoked renderer is caught and reported
to the logger (one message per failed renderer, carrying that renderer's
own error message), no failure stops a sibling from being invoked, and
`render` — a total function in this embedding, mirroring the per-promise
`.catch` — completes and re-raises nothing. -/
theorem renderAll_isolates_failures (c : RendererContainer) :
    c.logged = c.invoked.filterMap (fun r => r.renderResult) ∧
    c.logged.length =
      (c.invoked.filter (fun r => r.renderResult.isSome)).length ∧
    (∀ r ∈ c.invoked, ∀ msg, r.renderResult = some msg →
      msg ∈ c.logged) ∧
    (∀ r ∈ c.renderers.map Prod.snd, r.enabled = true → r ∈ c.invoked) := by
  refine ⟨rfl, ?_, ?_, ?_⟩
  · rw [show c.logged = c.invoked.filterMap (fun r => r.renderResult)
      from rfl]
    exact length_filterMap_eq_length_filter _ c.invoked
  · intro r hr msg hmsg
    rw [show c.logged = c.invoked.filterMap (fun r => r.renderResult)
      from rfl]
    exact List.mem_filterMap.2 ⟨r, hr, hmsg⟩
  · intro r hr hen
    have hel : r ∈ c.eligible := List.mem_filter.2 ⟨hr, hen⟩
    have hne : ¬c.eligible.isEmpty = true := by
      intro hemp
      rw [List.isEmpty_iff.1 hemp] at hel
      exact List.not_mem_nil r hel
    simpa [invoked, render, hne] using hel

/-- Witness for C2: on the registry with the enabled, failing `markdown`
renderer, the message `boom` is logged and `markdown` is invoked. -/
theorem renderAll_isolates_failures_witness :
    "boom" ∈ cMark.logged ∧ rMark ∈ cMark.invoked := by
  have h := renderAll_isolates_failures cMark
  exact ⟨h.2.2.1 rMark (by decide) "boom" (by decide),
    h.2.2.2 rMark (by decide) (by decide)⟩

/-- Claim C5: invariant I2 — in every reachable container state the
instance stored under `defaultRenderer.name` is the very same instance as
`defaultRenderer`; it holds at construction and is preserved by
`addRenderer`, `setDefault`, `getRenderer` and `render`. -/
theorem default_renderer_always_registered (c : RendererContainer)
    (h : Reachable c) :
    c.getRenderer c.defaultRenderer.name = some c.defaultRenderer :=
  (reachable_wf h).2.2.1

/-- Witness for C5: the invariant evaluated on the freshly constructed
registry. -/
theorem default_renderer_always_registered_witness :
    cInit.getRenderer cInit.defaultRenderer.name =
      some cInit.defaultRenderer :=
  default_renderer_always_registered cInit
    (Reachable.init 0 1 false false none none cInit rfl)

/-- Claim C6: a successful construction yields a registry holding exactly
the two built-in renderers under the names `html` and `json`, with the
html renderer as default; and since no operation removes a renderer, the
registry is non-empty in every reachable state. -/
theorem init_seeds_builtins_and_nonempty :
    (∀ (hu ju : Nat) (he je : Bool) (hres jres : Option String)
        (c : RendererContainer),
      RendererContainer.init (htmlRenderer hu he hres)
          (serializer ju je jres) = (c, Except.ok ()) →
      c.renderers = [("html", htmlRenderer hu he hres),
                     ("json", serializer ju je jres)] ∧
      c.defaultRenderer = htmlRenderer hu he hres) ∧
    (∀ c : RendererContainer, Reachable c → c.renderers ≠ []) := by
  constructor
  · intro hu ju he je hres jres c hc
    rw [init_eq] at hc
    cases hc
    exact ⟨rfl, rfl⟩
  · intro c hc
    exact (reachable_wf hc).2.2.2

/-- Witness for C6: the concrete seeded registry has exactly the two
built-ins and is non-empty, via the theorem at the reachable state
`cInit`. -/
theorem init_seeds_builtins_and_nonempty_witness :
    cInit.renderers = [("html", rHtml), ("json", rJson)] ∧
    cInit.renderers ≠ [] := by
  have h := init_seeds_builtins_and_nonempty
  exact ⟨(h.1 0 1 false false none none cInit rfl).1,
    h.2 cInit (Reachable.init 0 1 false false none none cInit rfl)⟩

/-- Claim C7: `getRenderer` is total (returns `none`, JS `undefined`,
rather than throwing, exactly when the name is absent), and any renderer
it returns is registered under that name; with unique keys it returns
the renderer registered under the name whenever one exists. -/
theorem getRenderer_total_lookup (c : RendererContainer) (n : String) :
    (c.getRenderer n = none ↔ ∀ p ∈ c.renderers, p.1 ≠ n) ∧
    (∀ r : Renderer, c.getRenderer n = some r → (n, r) ∈ c.renderers) ∧
    (c.WellFormed → ∀ r : Renderer, (n, r) ∈ c.renderers →
      c.getRenderer n = some r) := by
  refine ⟨?_, ?_, ?_⟩
  · simp [getRenderer, Option.map_eq_none', List.find?_eq_none]
  · intro r h
    obtain ⟨p, hp, hpr⟩ := Option.map_eq_some'.1 h
    have hmem := List.mem_of_find?_eq_some hp
    have hn : p.1 = n := by simpa using List.find?_some hp
    obtain ⟨a, b⟩ := p
    simp only at hn hpr
    rw [← hn, ← hpr]
    exact hmem
  · intro hwf r hmem
    have hsome : (c.renderers.find? (fun p => p.1 == n)).isSome :=
      List.find?_isSome.2 ⟨(n, r), hmem, by simp⟩
    obtain ⟨p, hp⟩ := Option.isSome_iff_exists.1 hsome
    have hpmem := List.mem_of_find?_eq_some hp
    have hpn : p.1 = n := by simpa using List.find?_some hp
    have hpeq : p = (n, r) :=
      List.inj_on_of_nodup_map hwf.1 hpmem hmem (by simpa using hpn)
    simp [getRenderer, hp, hpeq]

/-- Witness for C7: on the seeded registry, looking up the absent name
`markdown` yields `none`, looking up `html` yields the stored built-in. -/
theorem getRenderer_total_lookup_witness :
    cInit.getRenderer "markdown" = none ∧
    cInit.getRenderer "html" = some rHtml := by
  have h := getRenderer_total_lookup cInit "markdown"
  have h2 := getRenderer_total_lookup cInit "html"
  refine ⟨(h.1).2 (by decide), ?_⟩
  exact h2.2.2 (reachable_wf
    (Reachable.init 0 1 false false none none cInit rfl))
    rHtml (by decide)

/-- Claim C10: within one render pass each registered renderer is invoked
at most once — the fallback happens only when the eligible set is empty,
so the default is never run twice even when itself enabled — and there is
a reachable state in which the default's render is invoked although its
`isEnabled()` is false. -/
theorem renderAll_each_at_most_once :
    (∀ c : RendererContainer, Reachable c →
      c.invoked.Nodup ∧ (c.eligible ≠ [] → c.invoked = c.eligible)) ∧
    (∃ c : RendererContainer, Reachable c ∧
      c.defaultRenderer.enabled = false ∧
      c.invoked = [c.defaultRenderer]) := by
  constructor
  · intro c hc
    have hwf := reachable_wf hc
    constructor
    · by_cases he : c.eligible = []
      · simp [invoked, render, List.isEmpty_iff, he]
      · have : c.invoked = c.eligible := by
          simp [invoked, render, List.isEmpty_iff, he]
        rw [this]
        exact (values_nodup hwf).filter _
    · intro hne
      simp [invoked, render, List.isEmpty_iff, hne]
  · exact ⟨cInit,
      Reachable.init 0 1 false false none none cInit rfl,
      rfl, by decide⟩

/-- Witness for C10: on the reachable registry with the enabled
`markdown` renderer, the invoked list has no duplicates and equals the
eligible set (no additional fallback invocation of the default). -/
theorem renderAll_each_at_most_once_witness :
    cMark.invoked.Nodup ∧ cMark.invoked = cMark.eligible := by
  have h := renderAll_each_at_most_once
  have hre : Reachable cMark :=
    Reachable.add cInit rMark
      (Reachable.init 0 1 false false none none cInit rfl)
  exact ⟨(h.1 cMark hre).1, (h.1 cMark hre).2 (by decide)⟩
